import Mathlib

/-!
Verification of the post-scheduling functions of the social_media_poster
repository: the function schedule_linkedin_posts of agent_flow.py and the
function schedule_posts of agent.py, embedded shallowly.

Time model: instants are integers counting seconds since an epoch, in the
scheduler's local civil calendar taken as a fixed offset (the
localtime/mktime round trip of agent_flow.py and the naive-datetime
arithmetic of agent.py both become whole-day arithmetic; daylight-saving
shifts are not modelled).  Python floor division and modulo on integers are
Int.fdiv and Int.fmod.
-/

/-- Python floor division a // b on integers. -/
def pydiv (a b : Int) : Int := Int.fdiv a b

/-- Python modulo a % b on integers: the sign of the result follows the
divisor.  Python raises ZeroDivisionError for b = 0; callers below model
that case explicitly. -/
def pymod (a b : Int) : Int := Int.fmod a b

/-- Seconds in a day, as in agent_flow.py: day_seconds = 24 * 60 * 60. -/
def day_seconds : Int := 24 * 60 * 60

/-- Calendar-day number of an instant. -/
def dayOf (t : Int) : Int := pydiv t day_seconds

/-- Hour-of-day of an instant. -/
def hourOf (t : Int) : Int := pymod (pydiv t 3600) 24

/-- Minute-of-hour of an instant. -/
def minuteOf (t : Int) : Int := pymod (pydiv t 60) 60

theorem pydiv_eq_ediv (a : Int) {b : Int} (h : 0 ≤ b) : pydiv a b = a / b :=
  Int.fdiv_eq_ediv a h

theorem pymod_eq_emod (a : Int) {b : Int} (h : 0 ≤ b) : pymod a b = a % b :=
  Int.fmod_eq_emod a h

namespace AgentFlow

/-- The LinkedInPost model of agent_flow.py.  The field scheduled_for holds
the instant denoted by the formatted timestamp string the code stores. -/
structure LinkedInPost where
  topic_title : String
  content : String
  generated_at : String
  scheduled_for : Option Int := none
  published : Bool := false
deriving DecidableEq

/-- The list business_hours = [9, 12, 15, 17] of schedule_linkedin_posts. -/
def business_hours : List Int := [9, 12, 15, 17]

/-- The line day_offset = min(i * days // len(posts), days - 1) of
schedule_linkedin_posts, for the post at 0-indexed position i of a batch of
length n. -/
def day_offset (n : Nat) (days : Int) (i : Nat) : Int :=
  min (pydiv (i * days) n) (days - 1)

/-- The lines hour_index = i % len(business_hours);
target_hour = business_hours[hour_index] of schedule_linkedin_posts. -/
def target_hour (i : Nat) : Int :=
  business_hours.getD (i % business_hours.length) 0

/-- The instant written into scheduled_for for the post at position i: the
code takes the calendar date of current_time + day_offset * day_seconds and
rebuilds an instant on that date at target_hour with zero minutes and
seconds. -/
def scheduled_instant (current_time : Int) (n : Nat) (days : Int) (i : Nat) : Int :=
  dayOf (current_time + day_offset n days i * day_seconds) * day_seconds
    + target_hour i * 3600

/-- The function schedule_linkedin_posts(posts, days=3) of agent_flow.py.
The ambient clock reading time.time() is the parameter current_time. -/
def schedule_linkedin_posts (posts : List LinkedInPost) (days : Int)
    (current_time : Int) : List LinkedInPost :=
  if posts.isEmpty then []
  else posts.mapIdx fun i post =>
    { post with
        scheduled_for := some (scheduled_instant current_time posts.length days i) }

end AgentFlow

namespace Agent

/-- The Topic model of agent.py. -/
structure Topic where
  title : String
  summary : String
  key_points : List String
  relevance : String
deriving DecidableEq

/-- The LinkedInPost model of agent.py.  The field scheduled_time holds the
assigned instant. -/
structure LinkedInPost where
  content : String
  topic : Topic
  scheduled_time : Option Int := none
deriving DecidableEq

/-- The list posting_times = [9, 12, 17] of schedule_posts. -/
def posting_times : List Int := [9, 12, 17]

/-- The line base_date = datetime.now().replace(hour=0, minute=0, second=0,
microsecond=0) + timedelta(days=1) of schedule_posts: midnight of the day
after the invocation instant. -/
def base_date (now : Int) : Int := (dayOf now + 1) * day_seconds

/-- The line day_offset = i % ctx.deps.days_to_spread of schedule_posts
(Python modulo). -/
def day_offset (days_to_spread : Int) (i : Nat) : Int := pymod i days_to_spread

/-- The lines time_index = i % len(posting_times);
post_hour = posting_times[time_index] of schedule_posts. -/
def post_hour (i : Nat) : Int :=
  posting_times.getD (i % posting_times.length) 0

/-- The instant assigned to the post at position i:
base_date + timedelta(days=day_offset, hours=post_hour,
minutes=minute_variation).  The value drawn by random.randint(0, 15) for
post i is modelled by the function jit. -/
def scheduled_instant (now days_to_spread : Int) (jit : Nat → Nat) (i : Nat) : Int :=
  base_date now + day_offset days_to_spread i * day_seconds
    + post_hour i * 3600 + (jit i : Int) * 60

/-- The function schedule_posts of agent.py.  In Python, i % 0 raises
ZeroDivisionError, reached at the first loop iteration whenever
days_to_spread = 0 and the batch is non-empty; this is the only exception
the loop can raise, and the function performs no validation of its own. -/
def schedule_posts (posts : List LinkedInPost) (days_to_spread now : Int)
    (jit : Nat → Nat) : Except String (List LinkedInPost) :=
  if days_to_spread = 0 ∧ posts ≠ [] then .error "ZeroDivisionError"
  else .ok (posts.mapIdx fun i post =>
    { post with scheduled_time := some (scheduled_instant now days_to_spread jit i) })

end Agent

/-- A stub post of the agent_flow.py model, used for concrete scenarios. -/
def flowPost : AgentFlow.LinkedInPost :=
  { topic_title := "T", content := "C", generated_at := "G" }

/-- Five stub posts of the agent_flow.py model. -/
def flowPosts5 : List AgentFlow.LinkedInPost := List.replicate 5 flowPost

/-- A stub topic of the agent.py model. -/
def stubTopic : Agent.Topic :=
  { title := "T", summary := "S", key_points := [], relevance := "R" }

/-- A stub post of the agent.py model, used for concrete scenarios. -/
def agentPost : Agent.LinkedInPost := { content := "C", topic := stubTopic }

/-- Five stub posts of the agent.py model. -/
def agentPosts5 : List Agent.LinkedInPost := List.replicate 5 agentPost

theorem dayOf_eq (t : Int) : dayOf t = t / 86400 := by
  unfold dayOf day_seconds
  rw [pydiv_eq_ediv _ (by norm_num)]
  norm_num

theorem hourOf_eq (t : Int) : hourOf t = (t / 3600) % 24 := by
  unfold hourOf
  rw [pydiv_eq_ediv _ (by norm_num), pymod_eq_emod _ (by norm_num)]

theorem minuteOf_eq (t : Int) : minuteOf t = (t / 60) % 60 := by
  unfold minuteOf
  rw [pydiv_eq_ediv _ (by norm_num), pymod_eq_emod _ (by norm_num)]

namespace AgentFlow

theorem target_hour_bounds (i : Nat) : 9 ≤ target_hour i ∧ target_hour i ≤ 17 := by
  unfold target_hour business_hours
  have h4 : i % 4 = 0 ∨ i % 4 = 1 ∨ i % 4 = 2 ∨ i % 4 = 3 := by omega
  rcases h4 with h | h | h | h <;> simp [h]

theorem target_hour_mem (i : Nat) : target_hour i ∈ business_hours := by
  unfold target_hour business_hours
  have h4 : i % 4 = 0 ∨ i % 4 = 1 ∨ i % 4 = 2 ∨ i % 4 = 3 := by omega
  rcases h4 with h | h | h | h <;> simp [h]

theorem length_schedule (posts : List LinkedInPost) (days t : Int) :
    (schedule_linkedin_posts posts days t).length = posts.length := by
  unfold schedule_linkedin_posts
  by_cases h : posts.isEmpty
  · rw [if_pos h, List.isEmpty_iff.mp h]
  · rw [if_neg h, List.length_mapIdx]

theorem getElem?_schedule (posts : List LinkedInPost) (days t : Int) (i : Nat) :
    (schedule_linkedin_posts posts days t)[i]? =
      posts[i]?.map fun p =>
        { p with scheduled_for := some (scheduled_instant t posts.length days i) } := by
  unfold schedule_linkedin_posts
  by_cases h : posts.isEmpty
  · rw [if_pos h, List.isEmpty_iff.mp h]
    rfl
  · rw [if_neg h, List.getElem?_mapIdx]

theorem dayOf_scheduled_instant (t : Int) (n : Nat) (days : Int) (i : Nat) :
    dayOf (scheduled_instant t n days i) = dayOf t + day_offset n days i := by
  have hb := target_hour_bounds i
  unfold scheduled_instant
  generalize hH : target_hour i = H
  rw [hH] at hb
  generalize day_offset n days i = off
  simp only [dayOf_eq]
  unfold day_seconds
  omega

theorem hourOf_scheduled_instant (t : Int) (n : Nat) (days : Int) (i : Nat) :
    hourOf (scheduled_instant t n days i) = target_hour i := by
  have hb := target_hour_bounds i
  unfold scheduled_instant
  generalize hH : target_hour i = H
  rw [hH] at hb
  generalize day_offset n days i = off
  simp only [dayOf_eq, hourOf_eq]
  unfold day_seconds
  omega

end AgentFlow

namespace Agent

theorem post_hour_bounds (i : Nat) : 9 ≤ post_hour i ∧ post_hour i ≤ 17 := by
  unfold post_hour posting_times
  have h3 : i % 3 = 0 ∨ i % 3 = 1 ∨ i % 3 = 2 := by omega
  rcases h3 with h | h | h <;> simp [h]

theorem post_hour_mem (i : Nat) : post_hour i ∈ posting_times := by
  unfold post_hour posting_times
  have h3 : i % 3 = 0 ∨ i % 3 = 1 ∨ i % 3 = 2 := by omega
  rcases h3 with h | h | h <;> simp [h]

theorem schedule_posts_ok (posts : List LinkedInPost) (days now : Int)
    (jit : Nat → Nat) (hd : days ≠ 0) :
    schedule_posts posts days now jit = .ok (posts.mapIdx fun i post =>
      { post with scheduled_time := some (scheduled_instant now days jit i) }) := by
  unfold schedule_posts
  rw [if_neg fun hc => hd hc.1]

theorem day_offset_bounds (days : Int) (i : Nat) (h : 1 ≤ days) :
    0 ≤ day_offset days i ∧ day_offset days i < days := by
  unfold day_offset
  rw [pymod_eq_emod _ (by omega)]
  exact ⟨Int.emod_nonneg _ (by omega), Int.emod_lt_of_pos _ (by omega)⟩

theorem dayOf_agent_instant (now days : Int) (jit : Nat → Nat) (i : Nat)
    (hj : jit i ≤ 15) :
    dayOf (scheduled_instant now days jit i) = dayOf now + 1 + day_offset days i := by
  have hb := post_hour_bounds i
  unfold scheduled_instant base_date
  generalize hH : post_hour i = H
  rw [hH] at hb
  generalize day_offset days i = off
  simp only [dayOf_eq]
  unfold day_seconds
  omega

theorem hourOf_agent_instant (now days : Int) (jit : Nat → Nat) (i : Nat)
    (hj : jit i ≤ 15) :
    hourOf (scheduled_instant now days jit i) = post_hour i := by
  have hb := post_hour_bounds i
  unfold scheduled_instant base_date
  generalize hH : post_hour i = H
  rw [hH] at hb
  generalize day_offset days i = off
  simp only [dayOf_eq, hourOf_eq]
  unfold day_seconds
  omega

theorem minuteOf_scheduled_instant (now days : Int) (jit : Nat → Nat) (i : Nat)
    (hj : jit i ≤ 15) :
    minuteOf (scheduled_instant now days jit i) = (jit i : Int) := by
  have hb := post_hour_bounds i
  unfold scheduled_instant base_date
  generalize hH : post_hour i = H
  rw [hH] at hb
  generalize day_offset days i = off
  simp only [dayOf_eq, minuteOf_eq]
  unfold day_seconds
  omega

theorem base_date_future (now : Int) : now < base_date now := by
  unfold base_date day_seconds
  simp only [dayOf_eq]
  omega

end Agent

namespace AgentFlow

theorem day_offset_clamp_redundant (n : Nat) (days : Int) (i : Nat)
    (hd : 1 ≤ days) (hi : i < n) :
    pydiv ((i : Int) * days) n ≤ days - 1 ∧
      day_offset n days i = pydiv ((i : Int) * days) n := by
  have hn : (0 : Int) < (n : Int) := by exact_mod_cast Nat.lt_of_le_of_lt (Nat.zero_le i) hi
  have hi' : (i : Int) ≤ (n : Int) - 1 := by omega
  have h1 : (i : Int) * days < days * n := by nlinarith
  have h2 : ((i : Int) * days) / (n : Int) < days := (Int.ediv_lt_iff_lt_mul hn).mpr h1
  constructor
  · rw [pydiv_eq_ediv _ (le_of_lt hn)]
    omega
  · unfold day_offset
    rw [pydiv_eq_ediv _ (le_of_lt hn)]
    exact min_eq_left (by omega)

theorem day_offset_mono (n : Nat) (days : Int) (i j : Nat)
    (hd : 1 ≤ days) (hij : i ≤ j) (hjn : j < n) :
    day_offset n days i ≤ day_offset n days j := by
  have hn : (0 : Int) < (n : Int) := by exact_mod_cast Nat.lt_of_le_of_lt (Nat.zero_le j) hjn
  have hmul : (i : Int) * days ≤ (j : Int) * days := by
    have : (i : Int) ≤ (j : Int) := by exact_mod_cast hij
    nlinarith
  unfold day_offset
  rw [pydiv_eq_ediv _ (le_of_lt hn), pydiv_eq_ediv _ (le_of_lt hn)]
  exact min_le_min (Int.ediv_le_ediv hn hmul) (le_refl _)

theorem day_offset_surj (n : Nat) (days k : Int) (h1 : 1 ≤ days)
    (h2 : days ≤ (n : Int)) (hk0 : 0 ≤ k) (hk1 : k < days) :
    ∃ i : Nat, i < n ∧ day_offset n days i = k := by
  have hn : (0 : Int) < (n : Int) := lt_of_lt_of_le (by omega) h2
  have ha0 : (0 : Int) ≤ k * n + days - 1 := by nlinarith
  have hj0 : 0 ≤ (k * n + days - 1) / days := Int.ediv_nonneg ha0 (by omega)
  have hkey := Int.ediv_add_emod (k * n + days - 1) days
  have hr0 := Int.emod_nonneg (k * n + days - 1) (by omega : days ≠ 0)
  have hrlt := Int.emod_lt_of_pos (k * n + days - 1) (by omega : (0 : Int) < days)
  have hlow : k * n ≤ days * ((k * n + days - 1) / days) := by linarith
  have hhigh : days * ((k * n + days - 1) / days) ≤ k * n + days - 1 := by linarith
  have hkn : k * (n : Int) ≤ (days - 1) * n := mul_le_mul_of_nonneg_right (by omega) (le_of_lt hn)
  have hjn : (k * n + days - 1) / days < (n : Int) := by
    have h3 : days * ((k * n + days - 1) / days) < days * n := by nlinarith
    exact lt_of_mul_lt_mul_left h3 (by omega)
  have hcast : ((((k * (n : Int) + days - 1) / days).toNat : Nat) : Int)
      = (k * n + days - 1) / days := Int.toNat_of_nonneg hj0
  refine ⟨((k * (n : Int) + days - 1) / days).toNat, ?_, ?_⟩
  · have h5 : ((((k * (n : Int) + days - 1) / days).toNat : Nat) : Int) < (n : Int) := by
      rw [hcast]
      exact hjn
    exact_mod_cast h5
  · unfold day_offset
    rw [pydiv_eq_ediv _ (le_of_lt hn), hcast]
    have hs : (k * (n : Int) + days - 1) / days * days
        = (days * ((k * n + days - 1) / days) - k * n) + k * n := by ring
    rw [hs, Int.add_mul_ediv_right _ _ (by omega : (n : Int) ≠ 0)]
    rw [Int.ediv_eq_zero_of_lt (by linarith) (by linarith : days * ((k * (n : Int) + days - 1) / days) - k * n < n)]
    simp only [zero_add]
    exact min_eq_left (by omega)

end AgentFlow

/-- C1: the claim states that the scheduler assigns the item at position i
the day offset floor(i * d / n) clamped to [0, d-1], and in particular that
5 items over 3 days yield day offsets [0,0,1,1,2] and never [0,1,2,0,1].
The schedule_posts variant of agent.py, cited by the claim, instead assigns
i mod d: scheduling 5 stub posts over 3 days yields day offsets exactly
[0,1,2,0,1], refuting the claim at this concrete input. -/
theorem C1_counterexample :
    (Agent.schedule_posts agentPosts5 3 0 fun _ => 0).map
        (List.map fun p => dayOf (p.scheduled_time.getD 0) - (dayOf 0 + 1))
      = Except.ok [0, 1, 2, 0, 1]
    ∧ ([0, 1, 2, 0, 1] : List Int) ≠ [0, 0, 1, 1, 2] := by
  constructor
  · rfl
  · decide

/-- C1 (amended): the floor-division scheduler schedule_linkedin_posts of
agent_flow.py assigns the item at position i the day offset
min(floor(i * d / n), d - 1), so its calendar day is the invocation day
plus that offset; scheduling 5 items over 3 days with it yields day
offsets [0,0,1,1,2].  (The schedule_posts variant of agent.py instead uses
i mod d, yielding [0,1,2,0,1].) -/
theorem C1_floor_division_offsets (posts : List AgentFlow.LinkedInPost)
    (days t : Int) (i : Nat) (hi : i < posts.length) :
    ((AgentFlow.schedule_linkedin_posts posts days t)[i]?.map fun p =>
        p.scheduled_for.map dayOf)
      = some (some (dayOf t + min (pydiv ((i : Int) * days) posts.length) (days - 1)))
    ∧ (AgentFlow.schedule_linkedin_posts flowPosts5 3 0).map
        (fun p => p.scheduled_for.map dayOf)
      = [some 0, some 0, some 1, some 1, some 2] := by
  constructor
  · rw [AgentFlow.getElem?_schedule, List.getElem?_eq_getElem hi]
    simp only [Option.map_some']
    rw [AgentFlow.dayOf_scheduled_instant]
    rfl
  · rfl

/-- Witness for C1 (amended) at posts = flowPosts5, days = 3, t = 0, i = 2. -/
theorem C1_floor_division_offsets_witness :
    ((AgentFlow.schedule_linkedin_posts flowPosts5 3 0)[2]?.map fun p =>
        p.scheduled_for.map dayOf)
      = some (some (dayOf 0 + min (pydiv (((2 : Nat) : Int) * 3) flowPosts5.length) (3 - 1)))
    ∧ (AgentFlow.schedule_linkedin_posts flowPosts5 3 0).map
        (fun p => p.scheduled_for.map dayOf)
      = [some 0, some 0, some 1, some 1, some 2] :=
  C1_floor_division_offsets flowPosts5 3 0 2 (by decide)

/-- C2: the claim states every assigned timestamp lies strictly in the
future of the invocation's reference time and on a later calendar day.
schedule_linkedin_posts of agent_flow.py references the current instant:
invoked at instant 64800 (18:00 of day 0) on one stub post, it assigns
32400 (09:00 of the same day 0) — in the past and on the invocation day. -/
theorem C2_counterexample :
    (AgentFlow.schedule_linkedin_posts [flowPost] 3 64800).map
        (fun p => p.scheduled_for) = [some 32400]
    ∧ (32400 : Int) < 64800 ∧ dayOf 32400 = dayOf 64800 :=
  ⟨rfl, by norm_num, rfl⟩

/-- C2 (amended): in schedule_posts of agent.py, whose base is midnight of
the day after the invocation, every assigned timestamp is strictly after
the base reference and the invocation instant, and falls on a calendar day
strictly after the invocation day; schedule_linkedin_posts of agent_flow.py
instead references the current instant, so its first-day posts land on the
invocation day itself, possibly in the past. -/
theorem C2_agent_future_only (posts : List Agent.LinkedInPost) (days now : Int)
    (jit : Nat → Nat) (hd : 1 ≤ days) (hj : ∀ k, jit k ≤ 15)
    (i : Nat) (hi : i < posts.length) :
    ∃ out, Agent.schedule_posts posts days now jit = Except.ok out ∧
      ∃ p, out[i]? = some p ∧ ∃ s, p.scheduled_time = some s ∧
        Agent.base_date now < s ∧ now < s ∧ dayOf now < dayOf s := by
  refine ⟨_, Agent.schedule_posts_ok posts days now jit (by omega), ?_⟩
  rw [List.getElem?_mapIdx, List.getElem?_eq_getElem hi]
  refine ⟨_, rfl, _, rfl, ?_, ?_, ?_⟩
  · have hb := Agent.post_hour_bounds i
    have ho := Agent.day_offset_bounds days i hd
    have hJ : (0 : Int) ≤ (jit i : Int) := Int.natCast_nonneg _
    unfold Agent.scheduled_instant
    generalize hH : Agent.post_hour i = H at hb
    generalize hoff : Agent.day_offset days i = off at ho
    generalize Agent.base_date now = B
    unfold day_seconds
    omega
  · have hb := Agent.post_hour_bounds i
    have ho := Agent.day_offset_bounds days i hd
    have hJ : (0 : Int) ≤ (jit i : Int) := Int.natCast_nonneg _
    have hfut := Agent.base_date_future now
    unfold Agent.scheduled_instant
    generalize hH : Agent.post_hour i = H at hb
    generalize hoff : Agent.day_offset days i = off at ho
    generalize Agent.base_date now = B at hfut
    unfold day_seconds
    omega
  · rw [Agent.dayOf_agent_instant now days jit i (hj i)]
    have ho := Agent.day_offset_bounds days i hd
    linarith [ho.1]

/-- Witness for C2 (amended) at one stub post, days = 3, now = 0, zero
jitter, i = 0. -/
theorem C2_agent_future_only_witness :
    ∃ out, Agent.schedule_posts [agentPost] 3 0 (fun _ => 0) = Except.ok out ∧
      ∃ p, out[0]? = some p ∧ ∃ s, p.scheduled_time = some s ∧
        Agent.base_date 0 < s ∧ (0 : Int) < s ∧ dayOf 0 < dayOf s :=
  C2_agent_future_only [agentPost] 3 0 (fun _ => 0) (by norm_num)
    (fun _ => by norm_num) 0 (by decide)

/-- C3: the claim states that invalid configuration (spreadDays < 1) makes
the scheduler fail immediately with a configuration error and never produce
a scheduled result.  schedule_linkedin_posts of agent_flow.py with days = 0
silently returns a complete scheduled result: at invocation instant 64800
it assigns the stub post instant -54000, which is 09:00 of the day BEFORE
the epoch day (the clamp min(_, days - 1) produces day offset -1). -/
theorem C3_counterexample :
    (AgentFlow.schedule_linkedin_posts [flowPost] 0 64800).map
        (fun p => p.scheduled_for) = [some (-54000)]
    ∧ (AgentFlow.schedule_linkedin_posts [flowPost] 0 64800).length = 1 :=
  ⟨rfl, rfl⟩

/-- C3 (amended): neither scheduler validates its configuration.  With
spreadDays = 0 and a non-empty batch, schedule_linkedin_posts silently
returns a full schedule in which every item is placed on the calendar day
before the invocation day (day offset clamped to days - 1 = -1), and
schedule_posts of agent.py raises an uncaught ZeroDivisionError from i % 0
rather than a descriptive configuration error.  The slot-hour lists are
hardcoded and non-empty, so the empty-slotHours case cannot arise. -/
theorem C3_no_validation (pf : List AgentFlow.LinkedInPost)
    (pa : List Agent.LinkedInPost) (t now : Int) (jit : Nat → Nat)
    (i : Nat) (hi : i < pf.length) (ha : pa ≠ []) :
    (AgentFlow.schedule_linkedin_posts pf 0 t).length = pf.length
    ∧ ((AgentFlow.schedule_linkedin_posts pf 0 t)[i]?.map fun p =>
        p.scheduled_for.map dayOf) = some (some (dayOf t - 1))
    ∧ Agent.schedule_posts pa 0 now jit = Except.error "ZeroDivisionError" := by
  refine ⟨AgentFlow.length_schedule pf 0 t, ?_, ?_⟩
  · rw [AgentFlow.getElem?_schedule, List.getElem?_eq_getElem hi]
    simp only [Option.map_some']
    rw [AgentFlow.dayOf_scheduled_instant]
    have hz : AgentFlow.day_offset pf.length 0 i = -1 := by
      unfold AgentFlow.day_offset pydiv
      norm_num
    rw [hz]
    norm_num
    rfl
  · unfold Agent.schedule_posts
    rw [if_pos ⟨rfl, ha⟩]

/-- Witness for C3 (amended) at one stub post each, t = 64800, now = 0,
zero jitter, i = 0. -/
theorem C3_no_validation_witness :
    (AgentFlow.schedule_linkedin_posts [flowPost] 0 64800).length = [flowPost].length
    ∧ ((AgentFlow.schedule_linkedin_posts [flowPost] 0 64800)[0]?.map fun p =>
        p.scheduled_for.map dayOf) = some (some (dayOf 64800 - 1))
    ∧ Agent.schedule_posts [agentPost] 0 0 (fun _ => 0)
        = Except.error "ZeroDivisionError" :=
  C3_no_validation [flowPost] [agentPost] 64800 0 (fun _ => 0) 0 (by decide)
    (by decide)

/-- C4: for a batch of n items and spreadDays d with n ≥ d ≥ 1, every day
offset in [0, d-1] is used by at least one item: in
schedule_linkedin_posts of agent_flow.py some item is scheduled on the
invocation day plus k for every k in [0, d-1], and the modulo day offsets
of schedule_posts of agent.py likewise attain every such k. -/
theorem C4_offset_coverage (posts : List AgentFlow.LinkedInPost) (days t k : Int)
    (h1 : 1 ≤ days) (h2 : days ≤ (posts.length : Int)) (hk0 : 0 ≤ k) (hk1 : k < days) :
    (∃ i : Nat, i < posts.length ∧
      ((AgentFlow.schedule_linkedin_posts posts days t)[i]?.map fun p =>
          p.scheduled_for.map dayOf) = some (some (dayOf t + k)))
    ∧ ∀ n : Nat, days ≤ (n : Int) → ∃ i : Nat, i < n ∧ Agent.day_offset days i = k := by
  constructor
  · obtain ⟨i, hi, hoff⟩ := AgentFlow.day_offset_surj posts.length days k h1 h2 hk0 hk1
    refine ⟨i, hi, ?_⟩
    rw [AgentFlow.getElem?_schedule, List.getElem?_eq_getElem hi]
    simp only [Option.map_some']
    rw [AgentFlow.dayOf_scheduled_instant, hoff]
  · intro n hn
    refine ⟨k.toNat, by omega, ?_⟩
    unfold Agent.day_offset
    rw [Int.toNat_of_nonneg hk0, pymod_eq_emod _ (by omega)]
    exact Int.emod_eq_of_lt hk0 hk1

/-- Witness for C4 at 5 stub posts, days = 3, t = 0, k = 2. -/
theorem C4_offset_coverage_witness :
    (∃ i : Nat, i < flowPosts5.length ∧
      ((AgentFlow.schedule_linkedin_posts flowPosts5 3 0)[i]?.map fun p =>
          p.scheduled_for.map dayOf) = some (some (dayOf 0 + 2)))
    ∧ ∀ n : Nat, (3 : Int) ≤ (n : Int) → ∃ i : Nat, i < n ∧ Agent.day_offset 3 i = 2 :=
  C4_offset_coverage flowPosts5 3 0 2 (by norm_num) (by decide) (by norm_num)
    (by norm_num)

/-- The identity of an agent_flow.py post: every field except the
scheduled_for annotation written by the scheduler. -/
def flowIdentity (p : AgentFlow.LinkedInPost) : String × String × String × Bool :=
  (p.topic_title, p.content, p.generated_at, p.published)

/-- The identity of an agent.py post: every field except the
scheduled_time annotation written by the scheduler. -/
def agentIdentity (p : Agent.LinkedInPost) : String × Agent.Topic :=
  (p.content, p.topic)

/-- C5: in both schedulers, the item at position i is assigned the hour
slotHours[i mod len(slotHours)] of the hardcoded slot-hour list
(business_hours = [9,12,15,17] in agent_flow.py, posting_times = [9,12,17]
in agent.py), and hence the hour-of-day of every assigned timestamp is a
member of that list. -/
theorem C5_hour_assignment (pf : List AgentFlow.LinkedInPost)
    (pa : List Agent.LinkedInPost) (days t now : Int) (jit : Nat → Nat)
    (i : Nat) (hif : i < pf.length) (hia : i < pa.length)
    (hd : days ≠ 0) (hj : jit i ≤ 15) :
    (∃ p, (AgentFlow.schedule_linkedin_posts pf days t)[i]? = some p ∧
      ∃ s, p.scheduled_for = some s ∧
        hourOf s = AgentFlow.business_hours.getD (i % AgentFlow.business_hours.length) 0 ∧
        hourOf s ∈ AgentFlow.business_hours)
    ∧ (∃ out, Agent.schedule_posts pa days now jit = Except.ok out ∧
      ∃ p, out[i]? = some p ∧ ∃ s, p.scheduled_time = some s ∧
        hourOf s = Agent.posting_times.getD (i % Agent.posting_times.length) 0 ∧
        hourOf s ∈ Agent.posting_times) := by
  constructor
  · have h := AgentFlow.getElem?_schedule pf days t i
    rw [List.getElem?_eq_getElem hif] at h
    simp only [Option.map_some'] at h
    refine ⟨_, h, _, rfl, ?_, ?_⟩
    · rw [AgentFlow.hourOf_scheduled_instant]
      rfl
    · rw [AgentFlow.hourOf_scheduled_instant]
      exact AgentFlow.target_hour_mem i
  · refine ⟨_, Agent.schedule_posts_ok pa days now jit hd, ?_⟩
    have h2 : (pa.mapIdx fun k post =>
        { post with scheduled_time := some (Agent.scheduled_instant now days jit k) })[i]?
        = some { pa[i] with
            scheduled_time := some (Agent.scheduled_instant now days jit i) } := by
      rw [List.getElem?_mapIdx, List.getElem?_eq_getElem hia]
      rfl
    refine ⟨_, h2, _, rfl, ?_, ?_⟩
    · rw [Agent.hourOf_agent_instant now days jit i hj]
      rfl
    · rw [Agent.hourOf_agent_instant now days jit i hj]
      exact Agent.post_hour_mem i

/-- Witness for C5 at 5 stub posts each, days = 3, t = now = 0, zero
jitter, i = 4. -/
theorem C5_hour_assignment_witness :
    (∃ p, (AgentFlow.schedule_linkedin_posts flowPosts5 3 0)[4]? = some p ∧
      ∃ s, p.scheduled_for = some s ∧
        hourOf s = AgentFlow.business_hours.getD (4 % AgentFlow.business_hours.length) 0 ∧
        hourOf s ∈ AgentFlow.business_hours)
    ∧ (∃ out, Agent.schedule_posts agentPosts5 3 0 (fun _ => 0) = Except.ok out ∧
      ∃ p, out[4]? = some p ∧ ∃ s, p.scheduled_time = some s ∧
        hourOf s = Agent.posting_times.getD (4 % Agent.posting_times.length) 0 ∧
        hourOf s ∈ Agent.posting_times) :=
  C5_hour_assignment flowPosts5 agentPosts5 3 0 0 (fun _ => 0) 4 (by decide)
    (by decide) (by norm_num) (by norm_num)

/-- C6: both schedulers return a sequence of the same length as the input
whose item at every position has the same identity (all fields other than
the schedule annotation) as the input item at that position: nothing is
dropped, duplicated or reordered. -/
theorem C6_order_preserved (pf : List AgentFlow.LinkedInPost)
    (pa : List Agent.LinkedInPost) (days t now : Int) (jit : Nat → Nat)
    (hd : days ≠ 0) :
    ((AgentFlow.schedule_linkedin_posts pf days t).length = pf.length
      ∧ ∀ i : Nat, ((AgentFlow.schedule_linkedin_posts pf days t)[i]?.map flowIdentity)
          = pf[i]?.map flowIdentity)
    ∧ ∃ out, Agent.schedule_posts pa days now jit = Except.ok out
        ∧ out.length = pa.length
        ∧ ∀ i : Nat, out[i]?.map agentIdentity = pa[i]?.map agentIdentity := by
  refine ⟨⟨AgentFlow.length_schedule pf days t, fun i => ?_⟩, _,
    Agent.schedule_posts_ok pa days now jit hd, List.length_mapIdx, fun i => ?_⟩
  · rw [AgentFlow.getElem?_schedule]
    cases pf[i]? <;> rfl
  · rw [List.getElem?_mapIdx]
    cases pa[i]? <;> rfl

/-- Witness for C6 at 5 stub posts each, days = 3, t = now = 0, zero
jitter. -/
theorem C6_order_preserved_witness :
    ((AgentFlow.schedule_linkedin_posts flowPosts5 3 0).length = flowPosts5.length
      ∧ ∀ i : Nat, ((AgentFlow.schedule_linkedin_posts flowPosts5 3 0)[i]?.map flowIdentity)
          = flowPosts5[i]?.map flowIdentity)
    ∧ ∃ out, Agent.schedule_posts agentPosts5 3 0 (fun _ => 0) = Except.ok out
        ∧ out.length = agentPosts5.length
        ∧ ∀ i : Nat, out[i]?.map agentIdentity = agentPosts5[i]?.map agentIdentity :=
  C6_order_preserved flowPosts5 agentPosts5 3 0 0 (fun _ => 0) (by norm_num)

/-- C7: both schedulers write only the schedule annotation: every other
field of the output item at position i equals the corresponding field of
the input item at position i, and the annotation written is the computed
scheduled instant. -/
theorem C7_frame_only_schedule (pf : List AgentFlow.LinkedInPost)
    (pa : List Agent.LinkedInPost) (days t now : Int) (jit : Nat → Nat) :
    (∀ i p q, pf[i]? = some p →
      (AgentFlow.schedule_linkedin_posts pf days t)[i]? = some q →
      q.topic_title = p.topic_title ∧ q.content = p.content
        ∧ q.generated_at = p.generated_at ∧ q.published = p.published
        ∧ q.scheduled_for = some (AgentFlow.scheduled_instant t pf.length days i))
    ∧ ∀ out, Agent.schedule_posts pa days now jit = Except.ok out →
      ∀ i p q, pa[i]? = some p → out[i]? = some q →
        q.content = p.content ∧ q.topic = p.topic
          ∧ q.scheduled_time = some (Agent.scheduled_instant now days jit i) := by
  constructor
  · intro i p q hp hq
    rw [AgentFlow.getElem?_schedule, hp] at hq
    simp only [Option.map_some'] at hq
    injection hq with hq
    subst hq
    exact ⟨rfl, rfl, rfl, rfl, rfl⟩
  · intro out hok i p q hp hq
    unfold Agent.schedule_posts at hok
    by_cases hc : days = 0 ∧ pa ≠ []
    · rw [if_pos hc] at hok
      exact absurd hok (by simp)
    · rw [if_neg hc] at hok
      injection hok with hok
      subst hok
      rw [List.getElem?_mapIdx, hp] at hq
      simp only [Option.map_some'] at hq
      injection hq with hq
      subst hq
      exact ⟨rfl, rfl, rfl⟩

/-- Witness for C7 at one stub post each, days = 3, t = now = 0, zero
jitter, i = 0. -/
theorem C7_frame_only_schedule_witness :
    ({ flowPost with scheduled_for := some 32400 } : AgentFlow.LinkedInPost).topic_title
        = flowPost.topic_title
    ∧ ({ flowPost with scheduled_for := some 32400 } : AgentFlow.LinkedInPost).content
        = flowPost.content
    ∧ ({ flowPost with scheduled_for := some 32400 } : AgentFlow.LinkedInPost).generated_at
        = flowPost.generated_at
    ∧ ({ flowPost with scheduled_for := some 32400 } : AgentFlow.LinkedInPost).published
        = flowPost.published
    ∧ ({ flowPost with scheduled_for := some 32400 } : AgentFlow.LinkedInPost).scheduled_for
        = some (AgentFlow.scheduled_instant 0 [flowPost].length 3 0) :=
  (C7_frame_only_schedule [flowPost] [agentPost] 3 0 0 (fun _ => 0)).1 0 flowPost
    { flowPost with scheduled_for := some 32400 } rfl (by decide)

/-- C8: scheduling an empty batch is a no-op, not an error: both schedulers
return the empty sequence for every valid configuration. -/
theorem C8_empty_batch (days t now : Int) (jit : Nat → Nat) (hd : 1 ≤ days) :
    AgentFlow.schedule_linkedin_posts [] days t = []
    ∧ Agent.schedule_posts [] days now jit = Except.ok [] := by
  constructor
  · rfl
  · unfold Agent.schedule_posts
    rw [if_neg fun hc => hc.2 rfl]
    rfl

/-- Witness for C8 at days = 3, t = now = 0, zero jitter. -/
theorem C8_empty_batch_witness :
    AgentFlow.schedule_linkedin_posts [] 3 0 = []
    ∧ Agent.schedule_posts [] 3 0 (fun _ => 0) = Except.ok [] :=
  C8_empty_batch 3 0 0 (fun _ => 0) (by norm_num)

/-- C9: the minute jitter of schedule_posts of agent.py is cosmetic: for
fixed posts, spread days and invocation instant, any two jitter draws
bounded by 15 yield outputs whose calendar day and hour-of-day agree at
every position; the jitter value appears only as the minute field, which
stays in [0, 15]. -/
theorem C9_jitter_cosmetic (pa : List Agent.LinkedInPost) (days now : Int)
    (jit1 jit2 : Nat → Nat) (hd : days ≠ 0)
    (hj1 : ∀ k, jit1 k ≤ 15) (hj2 : ∀ k, jit2 k ≤ 15) :
    ∃ out1 out2 : List Agent.LinkedInPost,
      Agent.schedule_posts pa days now jit1 = Except.ok out1
      ∧ Agent.schedule_posts pa days now jit2 = Except.ok out2
      ∧ ∀ (i : Nat) (p1 p2 : Agent.LinkedInPost), out1[i]? = some p1 → out2[i]? = some p2 →
          ∃ s1 s2, p1.scheduled_time = some s1 ∧ p2.scheduled_time = some s2
            ∧ dayOf s1 = dayOf s2 ∧ hourOf s1 = hourOf s2
            ∧ minuteOf s1 = (jit1 i : Int) ∧ minuteOf s2 = (jit2 i : Int)
            ∧ 0 ≤ minuteOf s1 ∧ minuteOf s1 ≤ 15 := by
  refine ⟨_, _, Agent.schedule_posts_ok pa days now jit1 hd,
    Agent.schedule_posts_ok pa days now jit2 hd, ?_⟩
  intro i p1 p2 h1 h2
  rw [List.getElem?_mapIdx] at h1 h2
  cases hpi : pa[i]? with
  | none =>
    rw [hpi] at h1
    simp at h1
  | some p =>
    rw [hpi] at h1 h2
    simp only [Option.map_some'] at h1 h2
    injection h1 with h1
    injection h2 with h2
    subst h1
    subst h2
    refine ⟨_, _, rfl, rfl, ?_, ?_, ?_, ?_, ?_, ?_⟩
    · rw [Agent.dayOf_agent_instant now days jit1 i (hj1 i),
        Agent.dayOf_agent_instant now days jit2 i (hj2 i)]
    · rw [Agent.hourOf_agent_instant now days jit1 i (hj1 i),
        Agent.hourOf_agent_instant now days jit2 i (hj2 i)]
    · exact Agent.minuteOf_scheduled_instant now days jit1 i (hj1 i)
    · exact Agent.minuteOf_scheduled_instant now days jit2 i (hj2 i)
    · rw [Agent.minuteOf_scheduled_instant now days jit1 i (hj1 i)]
      exact Int.natCast_nonneg _
    · rw [Agent.minuteOf_scheduled_instant now days jit1 i (hj1 i)]
      exact_mod_cast hj1 i

/-- Witness for C9 at 5 stub posts, days = 3, now = 0, jitters 0 and 15. -/
theorem C9_jitter_cosmetic_witness :
    ∃ out1 out2 : List Agent.LinkedInPost,
      Agent.schedule_posts agentPosts5 3 0 (fun _ => 0) = Except.ok out1
      ∧ Agent.schedule_posts agentPosts5 3 0 (fun _ => 15) = Except.ok out2
      ∧ ∀ (i : Nat) (p1 p2 : Agent.LinkedInPost), out1[i]? = some p1 → out2[i]? = some p2 →
          ∃ s1 s2, p1.scheduled_time = some s1 ∧ p2.scheduled_time = some s2
            ∧ dayOf s1 = dayOf s2 ∧ hourOf s1 = hourOf s2
            ∧ minuteOf s1 = ((0 : Nat) : Int) ∧ minuteOf s2 = ((15 : Nat) : Int)
            ∧ 0 ≤ minuteOf s1 ∧ minuteOf s1 ≤ 15 :=
  C9_jitter_cosmetic agentPosts5 3 0 (fun _ => 0) (fun _ => 15) (by norm_num)
    (fun _ => by norm_num) (fun _ => by norm_num)

/-- C10: in the floor-division scheduler schedule_linkedin_posts of
agent_flow.py, the assigned calendar days are monotonically non-decreasing
in input position (item i is never scheduled on a later day than item j for
i ≤ j), and the clamp to days - 1 is redundant: floor(i * days / n) is
already at most days - 1 for every i < n. -/
theorem C10_monotone_offsets (posts : List AgentFlow.LinkedInPost) (days t : Int)
    (i j : Nat) (hd : 1 ≤ days) (hij : i ≤ j) (hjn : j < posts.length) :
    ((AgentFlow.schedule_linkedin_posts posts days t)[i]?.map fun p =>
        p.scheduled_for.map dayOf)
      = some (some (dayOf t + AgentFlow.day_offset posts.length days i))
    ∧ ((AgentFlow.schedule_linkedin_posts posts days t)[j]?.map fun p =>
        p.scheduled_for.map dayOf)
      = some (some (dayOf t + AgentFlow.day_offset posts.length days j))
    ∧ AgentFlow.day_offset posts.length days i ≤ AgentFlow.day_offset posts.length days j
    ∧ AgentFlow.day_offset posts.length days j = pydiv ((j : Int) * days) posts.length
    ∧ pydiv ((j : Int) * days) posts.length ≤ days - 1 := by
  have hin : i < posts.length := Nat.lt_of_le_of_lt hij hjn
  have hclamp := AgentFlow.day_offset_clamp_redundant posts.length days j hd hjn
  refine ⟨?_, ?_, AgentFlow.day_offset_mono posts.length days i j hd hij hjn,
    hclamp.2, hclamp.1⟩
  · rw [AgentFlow.getElem?_schedule, List.getElem?_eq_getElem hin]
    simp only [Option.map_some']
    rw [AgentFlow.dayOf_scheduled_instant]
  · rw [AgentFlow.getElem?_schedule, List.getElem?_eq_getElem hjn]
    simp only [Option.map_some']
    rw [AgentFlow.dayOf_scheduled_instant]

/-- Witness for C10 at 5 stub posts, days = 3, t = 0, i = 1, j = 4. -/
theorem C10_monotone_offsets_witness :
    ((AgentFlow.schedule_linkedin_posts flowPosts5 3 0)[1]?.map fun p =>
        p.scheduled_for.map dayOf)
      = some (some (dayOf 0 + AgentFlow.day_offset flowPosts5.length 3 1))
    ∧ ((AgentFlow.schedule_linkedin_posts flowPosts5 3 0)[4]?.map fun p =>
        p.scheduled_for.map dayOf)
      = some (some (dayOf 0 + AgentFlow.day_offset flowPosts5.length 3 4))
    ∧ AgentFlow.day_offset flowPosts5.length 3 1 ≤ AgentFlow.day_offset flowPosts5.length 3 4
    ∧ AgentFlow.day_offset flowPosts5.length 3 4 = pydiv (((4 : Nat) : Int) * 3) flowPosts5.length
    ∧ pydiv (((4 : Nat) : Int) * 3) flowPosts5.length ≤ 3 - 1 :=
  C10_monotone_offsets flowPosts5 3 0 1 4 (by norm_num) (by norm_num) (by decide)
